import Mathlib

/-
Verification of the model-viewer controls orchestrator and PMREM
mipmap/packing pipeline.  The definitions below are shallow embeddings of
the TypeScript source: the interaction-prompt state machine and camera
re-framing from the ControlsMixin, and the render-target / renderer-state
bookkeeping of PMREMGenerator.  Pure numeric code is embedded over ℚ (or ℝ
where the source computes with π), DOM/GPU collaborators are abstracted to
the fields the logic reads and writes.
-/

/-! ## Interaction-prompt state machine (ControlsMixin)

State fields mirror the symbols of the source element:
`$promptElementVisible`, `$userPromptedOnce`, `$waitingToPromptUser`,
`$shouldPromptUserToInteract`, the prompt element's `visible` CSS class,
the canvas `aria-label`, the base `$ariaLabel`, and the reflected
properties `interactionPrompt`, `interactionPromptThreshold`, plus the
base-element `loaded` flag and `$loadedTime`. -/

/-- The prompt text constant `INTERACTION_PROMPT`. -/
def INTERACTION_PROMPT : String :=
  "Use mouse, touch or arrow keys to control the camera!"

/-- Default `interaction-prompt-threshold` (milliseconds). -/
def DEFAULT_INTERACTION_PROMPT_THRESHOLD : ℚ := 3000

/-- State of the controls element relevant to the interaction prompt.
`interactionPrompt` is kept as the source's string enum
(values `auto`, `when-focused`, `none`). -/
structure ControlsState where
  promptElementVisible : Bool
  userPromptedOnce : Bool
  waitingToPromptUser : Bool
  shouldPromptUserToInteract : Bool
  promptClassVisible : Bool
  canvasAriaLabel : String
  ariaLabelBase : String
  interactionPrompt : String
  interactionPromptThreshold : ℚ
  loaded : Bool
  loadedTime : ℚ
  deriving DecidableEq

/-- Initial field values of the element (source lines 197-200): prompt
hidden, never prompted, not waiting, should-prompt true. -/
def initialControlsState : ControlsState where
  promptElementVisible := false
  userPromptedOnce := false
  waitingToPromptUser := false
  shouldPromptUserToInteract := true
  promptClassVisible := false
  canvasAriaLabel := ""
  ariaLabelBase := ""
  interactionPrompt := "auto"
  interactionPromptThreshold := DEFAULT_INTERACTION_PROMPT_THRESHOLD
  loaded := false
  loadedTime := 0

/-- `$deferInteractionPrompt` (source lines 351-364): cancel the waiting
timer, hide the prompt, and latch `$shouldPromptUserToInteract` to false
when the user has already been prompted once. -/
def deferInteractionPrompt (s : ControlsState) : ControlsState :=
  { s with
    waitingToPromptUser := false
    promptElementVisible := false
    promptClassVisible := false
    shouldPromptUserToInteract :=
      if s.userPromptedOnce then false else s.shouldPromptUserToInteract }

/-- `$onFocus` (source lines 454-475): restore the canvas aria-label to the
base `$ariaLabel`, and re-arm the waiting timer when the should-prompt flag
is still set.  The source only writes the attribute when it differs, which
is observationally the unconditional assignment. -/
def onFocus (s : ControlsState) : ControlsState :=
  let s1 := { s with canvasAriaLabel := s.ariaLabelBase }
  if s1.shouldPromptUserToInteract then
    { s1 with waitingToPromptUser := true }
  else s1

/-- `$onBlur` (source lines 477-481): stop waiting and hide the prompt. -/
def onBlur (s : ControlsState) : ControlsState :=
  { s with
    waitingToPromptUser := false
    promptElementVisible := false
    promptClassVisible := false }

/-- Prompt-relevant part of `$tick` (source lines 309-329): while waiting
and the strategy is not `none`, once the model is loaded and
`time > loadedTime + interactionPromptThreshold` the prompt becomes
visible, the user is marked as prompted once, waiting stops, and the
canvas aria-label becomes the prompt text.  The cosmetic prompt-offset
pivot nudge and the `controls.update` / pivot-center sync of the same
method touch only external scene state and are not modelled. -/
def tick (time : ℚ) (s : ControlsState) : ControlsState :=
  if s.waitingToPromptUser ∧ s.interactionPrompt ≠ "none" then
    if s.loaded ∧ s.loadedTime + s.interactionPromptThreshold < time then
      { s with
        canvasAriaLabel := INTERACTION_PROMPT
        userPromptedOnce := true
        waitingToPromptUser := false
        promptElementVisible := true
        promptClassVisible := true }
    else s
  else s

/-- The `src` branch of `updated` (source lines 281-284): defer the
interaction prompt, then start waiting again. -/
def handleSrcChange (s : ControlsState) : ControlsState :=
  let s1 := deferInteractionPrompt s
  { s1 with waitingToPromptUser := true }

/-- `$onChange` with `source === ChangeSource.USER_INTERACTION` (source
lines 483-493) defers the prompt.  The `$updateAria` aria-label update it
also performs depends on external camera state and is modelled separately
by `azimuthalQuadrant`. -/
def onChangeUserInteraction (s : ControlsState) : ControlsState :=
  deferInteractionPrompt s

/-- The `cameraControls` enable branch of `updated` (source lines 251-259):
when the strategy is `auto`, start waiting. -/
def controlsEnabled (s : ControlsState) : ControlsState :=
  if s.interactionPrompt = "auto" then
    { s with waitingToPromptUser := true }
  else s

/-- The `cameraControls` disable branch of `updated` (source lines
260-266): defer the prompt. -/
def controlsDisabled (s : ControlsState) : ControlsState :=
  deferInteractionPrompt s

/-- Events that drive the interaction-prompt state machine. -/
inductive PromptEvent where
  | focus
  | blur
  | frameTick (time : ℚ)
  | srcChanged
  | userInteraction
  | enableControls
  | disableControls
  deriving DecidableEq

/-- Dispatch one event to its handler. -/
def step : PromptEvent → ControlsState → ControlsState
  | .focus, s => onFocus s
  | .blur, s => onBlur s
  | .frameTick t, s => tick t s
  | .srcChanged, s => handleSrcChange s
  | .userInteraction, s => onChangeUserInteraction s
  | .enableControls, s => controlsEnabled s
  | .disableControls, s => controlsDisabled s

/-- Run a sequence of events left to right. -/
def runEvents (evs : List PromptEvent) (s : ControlsState) : ControlsState :=
  evs.foldl (fun t e => step e t) s

/-- A state in which the prompt machinery is settled: the should-prompt
latch is false, no waiting timer runs, and the prompt is hidden. -/
def promptSuppressed (s : ControlsState) : Prop :=
  s.shouldPromptUserToInteract = false ∧
  s.waitingToPromptUser = false ∧
  s.promptElementVisible = false

instance (s : ControlsState) : Decidable (promptSuppressed s) := by
  unfold promptSuppressed; infer_instance

/-- Focus, blur and tick events preserve `promptSuppressed`. -/
lemma step_preserves_promptSuppressed (e : PromptEvent) (s : ControlsState)
    (he : e = .focus ∨ e = .blur ∨ ∃ t, e = .frameTick t)
    (hs : promptSuppressed s) : promptSuppressed (step e s) := by
  obtain ⟨h1, h2, h3⟩ := hs
  rcases he with rfl | rfl | ⟨t, rfl⟩
  · simp [step, onFocus, promptSuppressed, h1, h2, h3]
  · simp [step, onBlur, promptSuppressed, h1]
  · simp [step, tick, promptSuppressed, h1, h2, h3]

/-- A state reachable right after the prompt was first shown by `$tick`:
prompted once, visible, still should-prompt (no defer has run). -/
def c1State : ControlsState where
  promptElementVisible := true
  userPromptedOnce := true
  waitingToPromptUser := false
  shouldPromptUserToInteract := true
  promptClassVisible := true
  canvasAriaLabel := INTERACTION_PROMPT
  ariaLabelBase := "A 3D model"
  interactionPrompt := "auto"
  interactionPromptThreshold := 3
  loaded := true
  loadedTime := 0

/-- C1 counterexample: with `$userPromptedOnce` set and no new source
loaded, the event sequence blur, focus, tick re-shows the prompt: after
re-focus the still-true should-prompt flag re-arms the waiting timer and
the next tick past the threshold makes the prompt visible again. -/
theorem prompt_reshown_after_refocus :
    c1State.userPromptedOnce = true ∧
    (runEvents [.blur, .focus, .frameTick 4] c1State).promptElementVisible
      = true := by
  refine ⟨rfl, ?_⟩
  norm_num [runEvents, step, onBlur, onFocus, tick, c1State]
  rw [if_neg (by decide)]

/-- C1 (amended): once the should-prompt latch has been cleared to false
and the prompt is hidden with no waiting timer running, no sequence of
focus, blur and per-frame tick events ever re-shows the prompt (every
intermediate state is `runEvents` of a prefix, so the conclusion covers
the whole trace). -/
theorem prompt_never_reshown_when_suppressed
    (s : ControlsState) (evs : List PromptEvent)
    (halpha : ∀ e ∈ evs, e = .focus ∨ e = .blur ∨ ∃ t, e = .frameTick t)
    (hs : promptSuppressed s) :
    (runEvents evs s).promptElementVisible = false := by
  suffices h : promptSuppressed (runEvents evs s) from h.2.2
  induction evs generalizing s with
  | nil => exact hs
  | cons e rest ih =>
      exact ih (step e s) (fun x hx => halpha x (List.mem_cons_of_mem e hx))
        (step_preserves_promptSuppressed e s
          (halpha e (List.mem_cons_self e rest)) hs)

/-- C1 witness: the amended theorem applied at a concrete suppressed state
and a concrete focus/blur/tick trace. -/
theorem prompt_never_reshown_when_suppressed_witness :
    (runEvents [.focus, .blur, .frameTick 5]
      (deferInteractionPrompt c1State)).promptElementVisible = false :=
  prompt_never_reshown_when_suppressed (deferInteractionPrompt c1State)
    [.focus, .blur, .frameTick 5]
    (by intro e he; fin_cases he
        · exact Or.inl rfl
        · exact Or.inr (Or.inl rfl)
        · exact Or.inr (Or.inr ⟨5, rfl⟩))
    (by decide)

/-- A suppressed state: the latch is false after a user interaction
deferred an already-shown prompt. -/
def c2State : ControlsState :=
  deferInteractionPrompt c1State

/-- C2 counterexample: handling a source change while the prompt is
suppressed does not clear the should-prompt latch — after the `src`
branch of `updated` runs, `$shouldPromptUserToInteract` is still false
(the prompt nevertheless re-arms because waiting is set directly). -/
theorem src_change_does_not_clear_latch :
    c2State.shouldPromptUserToInteract = false ∧
    (handleSrcChange c2State).shouldPromptUserToInteract = false ∧
    (handleSrcChange c2State).waitingToPromptUser = true := by
  refine ⟨rfl, rfl, rfl⟩

/-- C2 (amended): handling a source change resets the prompt state to
waiting (it defers, then sets the waiting flag directly, so the prompt can
show again regardless of the latch), but it never clears the one-way
should-prompt latch: the latch value after the event is false whenever the
user was already prompted once, and otherwise unchanged; moreover no event
of the machine ever clears the latch — once false it stays false. -/
theorem src_change_resets_waiting_but_latch_is_permanent
    (s : ControlsState) :
    (handleSrcChange s).waitingToPromptUser = true ∧
    (handleSrcChange s).shouldPromptUserToInteract =
      (if s.userPromptedOnce then false else s.shouldPromptUserToInteract) ∧
    (∀ (e : PromptEvent) (s' : ControlsState),
      s'.shouldPromptUserToInteract = false →
      (step e s').shouldPromptUserToInteract = false) := by
  refine ⟨rfl, rfl, ?_⟩
  intro e s' h
  cases e with
  | focus => simp [step, onFocus, h]
  | blur => simp [step, onBlur, h]
  | frameTick t =>
      simp only [step, tick]
      split_ifs <;> simp [h]
  | srcChanged => simp [step, handleSrcChange, deferInteractionPrompt, h]
  | userInteraction =>
      simp [step, onChangeUserInteraction, deferInteractionPrompt, h]
  | enableControls =>
      simp only [step, controlsEnabled]
      split_ifs <;> simp [h]
  | disableControls => simp [step, controlsDisabled, deferInteractionPrompt, h]

/-- C2 witness: the amended theorem at the concrete suppressed state,
with the latch-permanence conjunct applied at a concrete event. -/
theorem src_change_resets_waiting_but_latch_is_permanent_witness :
    (handleSrcChange c2State).waitingToPromptUser = true ∧
    (step .focus c2State).shouldPromptUserToInteract = false :=
  ⟨(src_change_resets_waiting_but_latch_is_permanent c2State).1,
   (src_change_resets_waiting_but_latch_is_permanent c2State).2.2
     .focus c2State (by decide)⟩

/-- A waiting state with the prompt hidden, threshold 3ms from load
time 0, strategy `auto`. -/
def c6State : ControlsState :=
  { c1State with
    promptElementVisible := false
    promptClassVisible := false
    userPromptedOnce := false
    waitingToPromptUser := true }

/-- C6 counterexample: at elapsed time exactly equal to the threshold
(time 3 = loadedTime 0 + threshold 3) the claimed `≥` trigger is
satisfied, yet `$tick` compares strictly (`time > loadedTime + threshold`)
and does not show the prompt. -/
theorem tick_at_threshold_does_not_prompt :
    c6State.waitingToPromptUser = true ∧
    c6State.loaded = true ∧
    c6State.loadedTime + c6State.interactionPromptThreshold ≤ (3 : ℚ) ∧
    (tick 3 c6State).promptElementVisible = false := by
  refine ⟨rfl, rfl, by norm_num [c6State, c1State],
    by norm_num [tick, c6State, c1State]⟩

/-- C6 (amended): while waiting with strategy not `none` and the prompt
hidden, `$tick` makes the prompt visible exactly when the model is loaded
and the elapsed time since load exceeds the threshold strictly; on that
transition it marks prompted-once, stops waiting, and sets the canvas
aria-label to the prompt text. -/
theorem tick_prompts_iff_threshold_strictly_exceeded
    (s : ControlsState) (t : ℚ)
    (hw : s.waitingToPromptUser = true)
    (hstrat : s.interactionPrompt ≠ "none")
    (hv : s.promptElementVisible = false) :
    ((tick t s).promptElementVisible = true ↔
      (s.loaded = true ∧ s.loadedTime + s.interactionPromptThreshold < t)) ∧
    (s.loaded = true → s.loadedTime + s.interactionPromptThreshold < t →
      (tick t s).userPromptedOnce = true ∧
      (tick t s).waitingToPromptUser = false ∧
      (tick t s).canvasAriaLabel = INTERACTION_PROMPT) := by
  unfold tick
  rw [if_pos (by exact ⟨hw, hstrat⟩)]
  constructor
  · constructor
    · intro h
      by_contra hc
      rw [if_neg (by tauto)] at h
      rw [hv] at h
      exact Bool.false_ne_true h
    · intro h
      rw [if_pos h]
  · intro h1 h2
    rw [if_pos ⟨h1, h2⟩]
    exact ⟨rfl, rfl, rfl⟩

/-- C6 witness: the amended theorem at the concrete waiting state with
time 4 strictly past the threshold. -/
theorem tick_prompts_iff_threshold_strictly_exceeded_witness :
    ((tick 4 c6State).promptElementVisible = true ↔
      (c6State.loaded = true ∧
        c6State.loadedTime + c6State.interactionPromptThreshold < 4)) ∧
    (tick 4 c6State).userPromptedOnce = true :=
  ⟨(tick_prompts_iff_threshold_strictly_exceeded c6State 4
      rfl (by decide) rfl).1,
   ((tick_prompts_iff_threshold_strictly_exceeded c6State 4
      rfl (by decide) rfl).2 rfl (by norm_num [c6State, c1State])).1⟩

/-! ## Camera re-framing (`$updateCamera`, source lines 371-401)

The field-of-view branch taken when the declarative `fieldOfView`
attribute equals the default string `auto`.  The newly framed
field-of-view (source lines 391-393) is a transcendental computation
`2 * atan(tan(HALF_FIELD_OF_VIEW_RADIANS) * max(1, fieldOfViewAspect /
aspect)) * 180 / PI` on floats; it is kept abstract here as the
parameter `newFramedFieldOfView`, since only the zoom-ratio algebra around
it is under verification.  The function returns the value passed to
`controls.setFieldOfView` together with the updated `$framedFieldOfView`
cache. -/
def updateCameraFov (fieldOfView : String) (framedFieldOfView : Option ℚ)
    (currentFov : ℚ) (newFramedFieldOfView : ℚ) : ℚ × Option ℚ :=
  if fieldOfView = "auto" then
    let zoom : ℚ :=
      match framedFieldOfView with
      | some f0 => currentFov / f0
      | none => 1
    (zoom * newFramedFieldOfView, some newFramedFieldOfView)
  else (currentFov, framedFieldOfView)

/-- C3: with `fieldOfView = "auto"`, `$updateCamera` sets the
field-of-view to `(currentFov / previousFramedFov) * newFramedFov`
(ratio 1 on the first call, when no framed value is cached), so the
ratio `currentFov / framedFov` is unchanged across a re-framing. -/
theorem updateCamera_preserves_zoom (f0 c f1 : ℚ) :
    (updateCameraFov "auto" (some f0) c f1).1 = (c / f0) * f1 ∧
    (updateCameraFov "auto" none c f1).1 = 1 * f1 ∧
    (updateCameraFov "auto" (some f0) c f1).2 = some f1 ∧
    (f1 ≠ 0 →
      (updateCameraFov "auto" (some f0) c f1).1 / f1 = c / f0) := by
  refine ⟨rfl, rfl, rfl, fun h => ?_⟩
  show (c / f0) * f1 / f1 = c / f0
  rw [mul_div_assoc, div_self h, mul_one]

/-- C3 witness: at `f0 = 2`, `c = 3`, `f1 = 5` the set field-of-view is
`(3 / 2) * 5` and the zoom ratio is preserved. -/
theorem updateCamera_preserves_zoom_witness :
    (updateCameraFov "auto" (some 2) 3 5).1 = ((3 : ℚ) / 2) * 5 ∧
    (updateCameraFov "auto" (some 2) 3 5).1 / 5 = (3 : ℚ) / 2 :=
  ⟨(updateCamera_preserves_zoom 2 3 5).1,
   (updateCamera_preserves_zoom 2 3 5).2.2.2 (by norm_num)⟩

/-! ## Cube-face shader functions (PMREMGenerator, source part_001)

`getFace` and `getDirection` from the GLSL fragment shaders, embedded
over exact rationals.  Directions are triples `(x, y, z)`. -/

/-- `getFace` from the mipmap shader (source lines 217-232): classify a
direction into one of the 6 cube faces by comparing absolute component
magnitudes.  The GLSL declares `int face = -1` and every branch of the
if/else tree assigns it, which the nested conditional reproduces. -/
def getFace (x y z : ℚ) : ℤ :=
  let ax := |x|
  let ay := |y|
  let az := |z|
  if az < ax then
    (if ay < ax then (if 0 < x then 0 else 3) else (if 0 < y then 1 else 4))
  else
    (if ay < az then (if 0 < z then 2 else 5) else (if 0 < y then 1 else 4))

/-- `getDirection` from the mipmap (downsample) shader (source lines
233-250): map tile-local uv and a face index to a 3D direction. -/
def mipmapGetDirection (u v : ℚ) (face : ℤ) : ℚ × ℚ × ℚ :=
  let x := 2 * u - 1
  let y := 2 * v - 1
  if face = 0 then (1, x, y)
  else if face = 1 then (x, 1, y)
  else if face = 2 then (x, y, 1)
  else if face = 3 then (-1, x, y)
  else if face = 4 then (x, -1, y)
  else (x, y, -1)

/-- `getDirection` from the packing shader (source lines 300-317);
embedded separately from the downsample shader's copy so their
equality is a statement about two source functions. -/
def packingGetDirection (u v : ℚ) (face : ℤ) : ℚ × ℚ × ℚ :=
  let x := 2 * u - 1
  let y := 2 * v - 1
  if face = 0 then (1, x, y)
  else if face = 1 then (x, 1, y)
  else if face = 2 then (x, y, 1)
  else if face = 3 then (-1, x, y)
  else if face = 4 then (x, -1, y)
  else (x, y, -1)

/-- C8: the UV-to-direction mapping is identical between the downsample
shader and the packing shader, for every uv pair and every face index
(in particular 0..5). -/
theorem getDirection_consistent (u v : ℚ) (face : ℤ) :
    mipmapGetDirection u v face = packingGetDirection u v face := rfl

/-- C10: `getFace` always returns a face index in {0,...,5} - the
sentinel -1 is unreachable for every input direction, including the zero
vector and directions with tied absolute component magnitudes.  Ties
`|x| = |z|` fall to the z-vs-y comparison (so never an x face), and ties
against `|y|` classify as the y face (1 or 4). -/
theorem getFace_total (x y z : ℚ) :
    getFace x y z ∈ ({0, 1, 2, 3, 4, 5} : Finset ℤ) ∧
    getFace x y z ≠ -1 ∧
    (|x| = |z| → getFace x y z ∈ ({1, 2, 4, 5} : Finset ℤ)) ∧
    ((|y| = |x| ∧ |z| ≤ |x|) ∨ (|y| = |z| ∧ |x| ≤ |z|) →
      getFace x y z ∈ ({1, 4} : Finset ℤ)) := by
  refine ⟨?_, ?_, ?_, ?_⟩
  · simp only [getFace]; split_ifs <;> decide
  · simp only [getFace]; split_ifs <;> decide
  · intro hxz
    simp only [getFace]
    rw [if_neg (by rw [hxz]; exact lt_irrefl _)]
    split_ifs <;> decide
  · rintro (⟨hyx, hzx⟩ | ⟨hyz, hxz⟩) <;> simp only [getFace]
    · rcases lt_or_le (|z|) (|x|) with hlt | hle
      · rw [if_pos hlt, if_neg (by rw [hyx]; exact lt_irrefl _)]
        split_ifs <;> decide
      · have hxz' : |x| = |z| := le_antisymm hle hzx
        rw [if_neg (not_lt.mpr hle), if_neg (by rw [hyx, hxz']; exact lt_irrefl _)]
        split_ifs <;> decide
    · rw [if_neg (not_lt.mpr hxz), if_neg (by rw [hyz]; exact lt_irrefl _)]
      split_ifs <;> decide

/-- C10 witness: the tie cases at the all-ones direction, where
`|x| = |z|` and `|y|` ties both, classify as the positive y face. -/
theorem getFace_total_witness :
    getFace 1 1 1 ∈ ({1, 2, 4, 5} : Finset ℤ) ∧
    getFace 1 1 1 ∈ ({1, 4} : Finset ℤ) :=
  ⟨(getFace_total 1 1 1).2.2.1 (by norm_num),
   (getFace_total 1 1 1).2.2.2 (Or.inl (by norm_num))⟩

/-! ## PMREMGenerator setup: render-target allocation (source lines 18-104)

The allocation-relevant state of a `PMREMGenerator` instance: the face
size of the cube camera's render target (`none` while `cubeCamera` is
null), the face sizes of the `cubeLods` array in push order, the stored
`numLods` (initialised to -1 in the constructor), and the dimensions of
the packed atlas target once allocated.  `setup` also returns a trace of
which render targets the call allocated.  The `addLodObjects` plane
meshes and the shader uniforms allocate no render targets and are not
tracked. -/

/-- Allocation-relevant fields of `PMREMGenerator`. -/
structure PmremState where
  cameraSize : Option ℕ
  lodSizes : List ℕ
  storedNumLods : ℤ
  atlasDims : Option (ℕ × ℕ)
  deriving DecidableEq

/-- Constructor state (source lines 21-36): no cube camera, empty
`cubeLods`, `numLods = -1`, no atlas target. -/
def initialPmremState : PmremState where
  cameraSize := none
  lodSizes := []
  storedNumLods := -1
  atlasDims := none

/-- Render targets allocated by one `setup` call. -/
structure SetupTrace where
  cameraAllocated : Bool
  lodAllocated : List ℕ
  atlasAllocated : Bool
  deriving DecidableEq

/-- One iteration of the lod loop (source lines 71-86): if
`cubeLods.length <= i`, either render directly from the source
(`sizeLod === size`: `addLodObjects(cubeTarget)`, no target pushed) or
allocate a new cube render target of face size `2^i` and push it.  The
accumulator is the pair of the `cubeLods` sizes and the sizes allocated
so far this call. -/
def lodStep (size : ℕ) (acc : List ℕ × List ℕ) (i : ℕ) : List ℕ × List ℕ :=
  let sizeLod := 2 ^ i
  if acc.1.length ≤ i then
    if sizeLod = size then acc
    else (acc.1 ++ [sizeLod], acc.2 ++ [sizeLod])
  else acc

/-- The lod loop, iterating `lodStep` at indices `i, i+1, ...` for `n`
steps (the source runs `for (i = 0; i < numLods + 1; i++)` with
`numLods = 8`). -/
def lodLoopAux (size : ℕ) : ℕ → ℕ → List ℕ × List ℕ → List ℕ × List ℕ
  | 0, _, acc => acc
  | n + 1, i, acc => lodLoopAux size n (i + 1) (lodStep size acc i)

/-- `PMREMGenerator.setup` (source lines 47-104): reallocate the cube
camera when null or its size differs; run the lod loop with the
hard-coded `numLods = 8`; allocate the packed atlas render target of
dimensions `3*(2^numLods+2)` by `4*numLods + 2*(2^(numLods+1)-1)` when
the stored level count differs from 8. -/
def setup (size : ℕ) (s : PmremState) : PmremState × SetupTrace :=
  let cameraAllocated : Bool := decide (s.cameraSize ≠ some size)
  let numLods : ℕ := 8
  let lodResult := lodLoopAux size (numLods + 1) 0 (s.lodSizes, [])
  if s.storedNumLods = (numLods : ℤ) then
    ({ s with cameraSize := some size, lodSizes := lodResult.1 },
     ⟨cameraAllocated, lodResult.2, false⟩)
  else
    ({ cameraSize := some size
       lodSizes := lodResult.1
       storedNumLods := (numLods : ℤ)
       atlasDims := some
         (3 * (2 ^ numLods + 2),
          4 * numLods + 2 * (2 ^ (numLods + 1) - 1)) },
     ⟨cameraAllocated, lodResult.2, true⟩)

/-- C4: whenever `setup` allocates the packed atlas render target, its
width is exactly `3*(2^numLods+2)` and its height exactly
`4*numLods + 2*(2^(numLods+1)-1)` for the fixed `numLods = 8`, that is,
width 774 and height 1054. -/
theorem setup_atlas_dimensions (size : ℕ) (s : PmremState)
    (h : (setup size s).2.atlasAllocated = true) :
    (setup size s).1.atlasDims =
      some (3 * (2 ^ 8 + 2), 4 * 8 + 2 * (2 ^ (8 + 1) - 1)) ∧
    (setup size s).1.atlasDims = some (774, 1054) := by
  by_cases hnum : s.storedNumLods = 8
  · exfalso
    simp [setup, hnum] at h
  · constructor <;> norm_num [setup, hnum]

/-- C4 witness: the first `setup` call (from the constructor state)
allocates the atlas at 774 by 1054. -/
theorem setup_atlas_dimensions_witness :
    (setup 256 initialPmremState).2.atlasAllocated = true ∧
    (setup 256 initialPmremState).1.atlasDims = some (774, 1054) :=
  ⟨by decide, (setup_atlas_dimensions 256 initialPmremState (by decide)).2⟩

/-- Helper: the lod loop leaves the accumulator unchanged when every
visited index is below the current `cubeLods` length. -/
lemma lodLoopAux_skip (size : ℕ) :
    ∀ (n i : ℕ) (acc : List ℕ × List ℕ),
      (∀ k, i ≤ k → k < i + n → k < acc.1.length) →
      lodLoopAux size n i acc = acc
  | 0, _, _, _ => rfl
  | n + 1, i, acc, h => by
      have hi : i < acc.1.length := h i le_rfl (by omega)
      have hstep : lodStep size acc i = acc := by
        simp only [lodStep]
        rw [if_neg (by omega)]
      simp only [lodLoopAux, hstep]
      exact lodLoopAux_skip size n (i + 1) acc
        (fun k hk1 hk2 => h k (by omega) (by omega))

/-- Helper: starting from a `cubeLods` list that already has at least 8
entries, a run of the lod loop inside the 9-index range allocates either
nothing or exactly one cube target of face size 256 (the latter when the
top index fires with `2^8 ≠ size`). -/
lemma lodLoopAux_no_realloc (size : ℕ) :
    ∀ (n i : ℕ) (lods al : List ℕ), 8 ≤ lods.length → i + n ≤ 9 →
      (lodLoopAux size n i (lods, al)).2 = al ∨
      (lodLoopAux size n i (lods, al)).2 = al ++ [256]
  | 0, _, _, _, _, _ => Or.inl rfl
  | n + 1, i, lods, al, hlen, hle => by
      by_cases hgate : lods.length ≤ i
      · have hi : i = 8 := by omega
        have hn : n = 0 := by omega
        subst hi
        subst hn
        by_cases hsz : 2 ^ 8 = size
        · have hstep : lodStep size (lods, al) 8 = (lods, al) := by
            simp only [lodStep]
            rw [if_pos hgate, if_pos hsz]
          simp only [lodLoopAux, hstep]
          exact Or.inl trivial
        · have hstep : lodStep size (lods, al) 8 =
              (lods ++ [256], al ++ [256]) := by
            simp only [lodStep]
            rw [if_pos hgate, if_neg hsz]
            norm_num
          simp only [lodLoopAux, hstep]
          exact Or.inr trivial
      · have hstep : lodStep size (lods, al) i = (lods, al) := by
          simp only [lodStep]
          rw [if_neg hgate]
        simp only [lodLoopAux, hstep]
        exact lodLoopAux_no_realloc size n (i + 1) lods al hlen (by omega)

/-- Helper: running the lod loop from index `i` for `n` steps pushes the
`cubeLods` length up to `i + n`, except that at most one index (the one
whose lod size equals the source size) may be skipped. -/
lemma lodLoopAux_length (size : ℕ) :
    ∀ (n i : ℕ) (acc : List ℕ × List ℕ),
      (i ≤ acc.1.length ∨
        (i ≤ acc.1.length + 1 ∧ ∃ j, j < i ∧ 2 ^ j = size)) →
      (i + n ≤ (lodLoopAux size n i acc).1.length ∨
        (i + n ≤ (lodLoopAux size n i acc).1.length + 1 ∧
          ∃ j, j < i + n ∧ 2 ^ j = size))
  | 0, i, acc, h => by simpa using h
  | n + 1, i, acc, h => by
      have hstep : (i + 1 ≤ (lodStep size acc i).1.length ∨
          (i + 1 ≤ (lodStep size acc i).1.length + 1 ∧
            ∃ j, j < i + 1 ∧ 2 ^ j = size)) := by
        simp only [lodStep]
        by_cases hgate : acc.1.length ≤ i
        · rw [if_pos hgate]
          by_cases hsz : 2 ^ i = size
          · rw [if_pos hsz]
            rcases h with hl | ⟨_, j, hj, hjs⟩
            · exact Or.inr ⟨by omega, i, by omega, hsz⟩
            · exact absurd
                (Nat.pow_right_injective le_rfl (hjs.trans hsz.symm))
                (by omega)
          · rw [if_neg hsz]
            simp only [List.length_append, List.length_singleton]
            rcases h with hl | ⟨hl, j, hj, hjs⟩
            · exact Or.inl (by omega)
            · exact Or.inr ⟨by omega, j, by omega, hjs⟩
        · rw [if_neg hgate]
          exact Or.inl (by omega)
      have hrec := lodLoopAux_length size n (i + 1) (lodStep size acc i) hstep
      have harith : i + (n + 1) = (i + 1) + n := by omega
      simp only [lodLoopAux]
      rw [harith]
      exact hrec

/-- After any `setup` call, the stored level count is 8. -/
lemma setup_storedNumLods (size : ℕ) (s : PmremState) :
    (setup size s).1.storedNumLods = 8 := by
  by_cases h : s.storedNumLods = 8 <;> simp [setup, h]

/-- After any `setup` call, the cube camera target has the source size. -/
lemma setup_cameraSize (size : ℕ) (s : PmremState) :
    (setup size s).1.cameraSize = some size := by
  by_cases h : s.storedNumLods = 8 <;> simp [setup, h]

/-- The cube-camera allocation trace of `setup`. -/
lemma setup_cameraAllocated (size : ℕ) (s : PmremState) :
    (setup size s).2.cameraAllocated = decide (s.cameraSize ≠ some size) := by
  by_cases h : s.storedNumLods = 8 <;> simp [setup, h]

/-- The lod-allocation trace of `setup` is the lod loop's. -/
lemma setup_lodAllocated (size : ℕ) (s : PmremState) :
    (setup size s).2.lodAllocated =
      (lodLoopAux size 9 0 (s.lodSizes, [])).2 := by
  by_cases h : s.storedNumLods = 8 <;> simp [setup, h]

/-- The `cubeLods` list after `setup` is the lod loop's. -/
lemma setup_lodSizes (size : ℕ) (s : PmremState) :
    (setup size s).1.lodSizes =
      (lodLoopAux size 9 0 (s.lodSizes, [])).1 := by
  by_cases h : s.storedNumLods = 8 <;> simp [setup, h]

/-- When the stored level count is already 8, `setup` does not
reallocate the atlas target. -/
lemma setup_atlas_stable (size : ℕ) (t : PmremState)
    (h : t.storedNumLods = 8) :
    (setup size t).2.atlasAllocated = false := by
  simp [setup, h]

/-- Any `setup` call leaves at least 8 entries in `cubeLods`. -/
lemma setup_lod_length (size : ℕ) (s : PmremState) :
    8 ≤ (setup size s).1.lodSizes.length := by
  rw [setup_lodSizes]
  have h := lodLoopAux_length size 9 0 (s.lodSizes, [])
    (Or.inl (Nat.zero_le _))
  rcases h with h | ⟨h, _⟩ <;> omega

/-- C5 counterexample: two consecutive `setup` calls with the unchanged
source size 2 — the second call allocates a new cube LOD render target
(face size 256) even though the size did not change.  The first call
skipped the push at the index whose lod size equals the source, so the
length gate `cubeLods.length <= i` fires again at the top index on every
later call until a push happens. -/
theorem setup_reallocates_on_unchanged_size :
    (setup 2 (setup 2 initialPmremState).1).2.lodAllocated = [256] ∧
    (setup 2 (setup 2 initialPmremState).1).2.cameraAllocated = false ∧
    (setup 2 (setup 2 initialPmremState).1).2.atlasAllocated = false := by
  decide

/-- C5 (amended): across two consecutive `setup` calls, the cube camera
is reallocated by the second call exactly when the source size changed;
the atlas target is never reallocated by the second call (it is
allocated only when the stored level count differs from 8, i.e. on the
first call); and the second call's cube-LOD allocation is at most one
render target of face size 256 — which can happen even for an unchanged
size, when the first call's size coincided with a lod size below 256. -/
theorem setup_reallocation_policy (s : PmremState) (size1 size2 : ℕ) :
    (setup size2 (setup size1 s).1).2.cameraAllocated
      = decide (size2 ≠ size1) ∧
    (setup size2 (setup size1 s).1).2.atlasAllocated = false ∧
    ((setup size2 (setup size1 s).1).2.lodAllocated = [] ∨
      (setup size2 (setup size1 s).1).2.lodAllocated = [256]) := by
  refine ⟨?_, ?_, ?_⟩
  · rw [setup_cameraAllocated, setup_cameraSize]
    by_cases h : size1 = size2
    · simp [h]
    · simp [h]
      exact fun hc => h hc.symm
  · exact setup_atlas_stable size2 _ (setup_storedNumLods size1 s)
  · rw [setup_lodAllocated]
    have := lodLoopAux_no_realloc size2 9 0
      ((setup size1 s).1.lodSizes) [] (setup_lod_length size1 s) (by omega)
    simpa using this

/-! ## Renderer state save/restore (generateMipmaps / packMipmaps)

The renderer fields read and written by the two passes (source lines
138-194): `gammaInput`, `gammaOutput`, `toneMapping`,
`toneMappingExposure` and the bound render target.  Render targets are
identified by numeric ids; `none` is the null (default framebuffer)
target.  The contents written by the GPU are abstracted as a value of a
type `α` transformed by an arbitrary effect function that sees the
renderer settings in force at the moment of each render call — so the
restore property holds regardless of what the render passes do. -/

/-- The three.js `LinearToneMapping` enum value. -/
def LinearToneMapping : ℕ := 1

/-- Renderer settings saved and restored by the passes. -/
structure RendererSettings where
  gammaInput : Bool
  gammaOutput : Bool
  toneMapping : ℕ
  toneMappingExposure : ℚ
  renderTarget : Option ℕ
  deriving DecidableEq

/-- A renderer: its settings plus abstract GPU output state. -/
structure Renderer (α : Type) where
  settings : RendererSettings
  gpu : α

/-- The settings forced during both passes: linear tone mapping,
exposure 1, gamma input/output off. -/
def forcedSettings (target : Option ℕ) : RendererSettings where
  gammaInput := false
  gammaOutput := false
  toneMapping := LinearToneMapping
  toneMappingExposure := 1
  renderTarget := target

/-- One render call: bind a target (`renderer.setRenderTarget`) and apply
the effect under the current settings. -/
def renderPass {α : Type} (eff : RendererSettings → α → α) (target : ℕ)
    (r : Renderer α) : Renderer α :=
  let s := { r.settings with renderTarget := some target }
  ⟨s, eff s r.gpu⟩

/-- `PMREMGenerator.generateMipmaps` (source lines 138-165): save the
five renderer fields, force linear tone mapping / exposure 1 / gamma off,
loop `i = numLods-1` down to `0` binding `cubeLods[i]` and rendering the
mipmap scene through the cube camera, then rebind the saved target and
restore the saved fields.  `lodTarget i` is the id of `cubeLods[i]`; the
shader-uniform updates of the loop touch no renderer state and are not
modelled. -/
def generateMipmaps {α : Type} (numLods : ℕ) (lodTarget : ℕ → ℕ)
    (eff : RendererSettings → α → α) (r : Renderer α) : Renderer α :=
  let saved := r.settings
  let r1 : Renderer α :=
    ⟨{ saved with
        toneMapping := LinearToneMapping
        toneMappingExposure := 1
        gammaInput := false
        gammaOutput := false }, r.gpu⟩
  let r2 := (List.range numLods).reverse.foldl
    (fun t i => renderPass eff (lodTarget i) t) r1
  ⟨{ r2.settings with
      renderTarget := saved.renderTarget
      toneMapping := saved.toneMapping
      toneMappingExposure := saved.toneMappingExposure
      gammaInput := saved.gammaInput
      gammaOutput := saved.gammaOutput }, r2.gpu⟩

/-- `PMREMGenerator.packMipmaps` (source lines 167-194): save the five
renderer fields, force the same settings, bind the atlas target, render
the packing scene once with the orthographic camera, then rebind and
restore.  The temporary add/remove of the `6 * numLods` plane meshes to
the packing scene touches only scene state and is not modelled. -/
def packMipmaps {α : Type} (atlasTarget : ℕ)
    (eff : RendererSettings → α → α) (r : Renderer α) : Renderer α :=
  let saved := r.settings
  let r1 : Renderer α :=
    ⟨{ saved with
        gammaInput := false
        gammaOutput := false
        toneMapping := LinearToneMapping
        toneMappingExposure := 1 }, r.gpu⟩
  let r2 := renderPass eff atlasTarget r1
  ⟨{ r2.settings with
      renderTarget := saved.renderTarget
      toneMapping := saved.toneMapping
      toneMappingExposure := saved.toneMappingExposure
      gammaInput := saved.gammaInput
      gammaOutput := saved.gammaOutput }, r2.gpu⟩

/-- Helper: folding render passes over any index list starting from
forced settings keeps the settings forced (only the bound target moves)
and feeds every effect call exactly the forced settings. -/
lemma foldl_renderPass_spec {α : Type} (eff : RendererSettings → α → α)
    (lodTarget : ℕ → ℕ) :
    ∀ (l : List ℕ) (t0 : Option ℕ) (g : α),
      l.foldl (fun t i => renderPass eff (lodTarget i) t)
          ⟨forcedSettings t0, g⟩ =
        ⟨forcedSettings (l.foldl (fun _ i => some (lodTarget i)) t0),
          l.foldl (fun a i => eff (forcedSettings (some (lodTarget i))) a) g⟩
  | [], t0, g => rfl
  | i :: rest, t0, g => by
      have hstep : renderPass eff (lodTarget i)
          (⟨forcedSettings t0, g⟩ : Renderer α) =
          ⟨forcedSettings (some (lodTarget i)),
            eff (forcedSettings (some (lodTarget i))) g⟩ := rfl
      simp only [List.foldl_cons, hstep]
      exact foldl_renderPass_spec eff lodTarget rest (some (lodTarget i))
        (eff (forcedSettings (some (lodTarget i))) g)

/-- C9: `generateMipmaps` and `packMipmaps` restore the renderer's tone
mapping, tone-mapping exposure, gammaInput, gammaOutput and bound render
target to their pre-call values by the time they return, for every
starting renderer state and every effect the render passes may have on
GPU contents; and within the passes every render call executes under
forced settings — linear tone mapping, exposure 1, gamma off — with the
appropriate target bound (`cubeLods[i]` for `i = numLods-1 .. 0`, the
atlas for the packing pass). -/
theorem passes_restore_renderer_state {α : Type} (numLods : ℕ)
    (lodTarget : ℕ → ℕ) (atlasTarget : ℕ)
    (eff : RendererSettings → α → α) (r : Renderer α) :
    (generateMipmaps numLods lodTarget eff r).settings = r.settings ∧
    (generateMipmaps numLods lodTarget eff r).gpu =
      (List.range numLods).reverse.foldl
        (fun a i => eff (forcedSettings (some (lodTarget i))) a) r.gpu ∧
    (packMipmaps atlasTarget eff r).settings = r.settings ∧
    (packMipmaps atlasTarget eff r).gpu =
      eff (forcedSettings (some atlasTarget)) r.gpu := by
  have hgen : generateMipmaps numLods lodTarget eff r =
      ⟨r.settings,
        (List.range numLods).reverse.foldl
          (fun a i => eff (forcedSettings (some (lodTarget i))) a) r.gpu⟩ := by
    simp only [generateMipmaps]
    have hforce :
        ({ gammaInput := false
           gammaOutput := false
           toneMapping := LinearToneMapping
           toneMappingExposure := 1
           renderTarget := r.settings.renderTarget } : RendererSettings) =
          forcedSettings r.settings.renderTarget := rfl
    rw [hforce]
    rw [foldl_renderPass_spec eff lodTarget (List.range numLods).reverse
      r.settings.renderTarget r.gpu]
  have hpack : packMipmaps atlasTarget eff r =
      ⟨r.settings, eff (forcedSettings (some atlasTarget)) r.gpu⟩ := by
    simp only [packMipmaps]
    rfl
  rw [hgen, hpack]
  exact ⟨rfl, rfl, rfl, rfl⟩

/-! ## Azimuthal quadrant bucketing (`$updateAria`, source lines 403-438)

The aria-label quadrant computation over exact reals.  JavaScript's `%`
on numbers is the remainder of truncating division (sign of the
dividend), embedded as `jsRem`; the outer `% 4` acts on the integer
`4 + Math.floor(...)`, embedded as `Int.tmod` (truncating remainder),
which matches JavaScript `%` on integers. -/

/-- The source constant `HALF_PI = Math.PI / 2`. -/
noncomputable def HALF_PI : ℝ := Real.pi / 2

/-- The source constant `QUARTER_PI = HALF_PI / 2`. -/
noncomputable def QUARTER_PI : ℝ := HALF_PI / 2

/-- The source constant `PHI = 2.0 * Math.PI` (one full turn). -/
noncomputable def PHI : ℝ := 2 * Real.pi

/-- Truncation toward zero, the rounding of JavaScript division
underlying the `%` operator. -/
noncomputable def rtrunc (x : ℝ) : ℤ := if x < 0 then ⌈x⌉ else ⌊x⌋

/-- JavaScript remainder `a % b`: `a - b * trunc(a / b)`, carrying the
sign of the dividend. -/
noncomputable def jsRem (a b : ℝ) : ℝ := a - b * (rtrunc (a / b) : ℝ)

/-- The azimuthal quadrant of `$updateAria` (source lines 417-420):
`(4 + Math.floor(((theta % PHI) + QUARTER_PI) / HALF_PI)) % 4`. -/
noncomputable def azimuthalQuadrant (θ : ℝ) : ℤ :=
  Int.tmod (4 + ⌊(jsRem θ PHI + QUARTER_PI) / HALF_PI⌋) 4

lemma rtrunc_of_neg {x : ℝ} (h : x < 0) : rtrunc x = ⌈x⌉ := if_pos h

lemma rtrunc_of_nonneg {x : ℝ} (h : 0 ≤ x) : rtrunc x = ⌊x⌋ :=
  if_neg (not_lt.mpr h)

/-- For a nonnegative angle, the JavaScript remainder by a full turn is
invariant under adding a turn. -/
lemma jsRem_period_nonneg (θ : ℝ) (hθ : 0 ≤ θ) :
    jsRem (θ + PHI) PHI = jsRem θ PHI := by
  have hπ := Real.pi_pos
  have h2 : (0 : ℝ) < PHI := by simp only [PHI]; linarith
  have h2ne : PHI ≠ 0 := ne_of_gt h2
  have hx : 0 ≤ θ / PHI := div_nonneg hθ h2.le
  have hdiv : (θ + PHI) / PHI = θ / PHI + 1 := by
    field_simp
  simp only [jsRem]
  rw [hdiv, rtrunc_of_nonneg hx,
    rtrunc_of_nonneg (by linarith : (0 : ℝ) ≤ θ / PHI + 1),
    Int.floor_add_one]
  push_cast
  ring

/-- For an angle at most one turn below zero or lower, the JavaScript
remainder by a full turn is likewise invariant. -/
lemma jsRem_period_nonpos (θ : ℝ) (hθ : θ + PHI ≤ 0) :
    jsRem (θ + PHI) PHI = jsRem θ PHI := by
  have hπ := Real.pi_pos
  have h2 : (0 : ℝ) < PHI := by simp only [PHI]; linarith
  have h2ne : PHI ≠ 0 := ne_of_gt h2
  have hxle : θ / PHI ≤ -1 := by
    rw [div_le_iff₀ h2]
    linarith
  have hxneg : θ / PHI < 0 := lt_of_le_of_lt hxle (by norm_num)
  have hdiv : (θ + PHI) / PHI = θ / PHI + 1 := by
    field_simp
  have hceil : rtrunc (θ / PHI + 1) = ⌈θ / PHI⌉ + 1 := by
    rcases lt_or_eq_of_le (by linarith : θ / PHI + 1 ≤ 0) with h | h
    · rw [rtrunc_of_neg h, Int.ceil_add_one]
    · have hxe : θ / PHI = -1 := by linarith
      rw [h, hxe, rtrunc_of_nonneg (le_refl (0 : ℝ))]
      norm_num [Int.ceil_neg, Int.ceil_one]
  simp only [jsRem]
  rw [hdiv, hceil, rtrunc_of_neg hxneg]
  push_cast
  ring

/-- C7: the azimuthal-quadrant bucketing is invariant under adding one
full turn: `azimuthalQuadrant (θ + 2π) = azimuthalQuadrant θ` for every
real θ, covering the wrap of the JavaScript remainder through zero. -/
theorem azimuthalQuadrant_add_two_pi (θ : ℝ) :
    azimuthalQuadrant (θ + 2 * Real.pi) = azimuthalQuadrant θ := by
  have hπ := Real.pi_pos
  have hPHIe : PHI = 2 * Real.pi := rfl
  rw [show θ + 2 * Real.pi = θ + PHI from rfl]
  rcases le_or_lt 0 θ with hA | hneg
  · simp only [azimuthalQuadrant]
    rw [jsRem_period_nonneg θ hA]
  · rcases le_or_lt (θ + PHI) 0 with hB | hC
    · simp only [azimuthalQuadrant]
      rw [jsRem_period_nonpos θ hB]
    · have h2 : (0 : ℝ) < PHI := by rw [hPHIe]; linarith
      have hr1 : jsRem θ PHI = θ := by
        have hx1 : θ / PHI < 0 := div_neg_of_neg_of_pos hneg h2
        have hx2 : (-1 : ℝ) < θ / PHI := by
          rw [lt_div_iff₀ h2]
          rw [hPHIe] at hC ⊢
          linarith
        simp only [jsRem]
        rw [rtrunc_of_neg hx1, Int.ceil_eq_zero_iff.mpr ⟨hx2, hx1.le⟩]
        push_cast
        ring
      have hr2 : jsRem (θ + PHI) PHI = θ + PHI := by
        have hy1 : 0 ≤ (θ + PHI) / PHI := div_nonneg hC.le h2.le
        have hy2 : (θ + PHI) / PHI < 1 := by
          rw [div_lt_one h2]
          linarith
        simp only [jsRem]
        rw [rtrunc_of_nonneg hy1, Int.floor_eq_zero_iff.mpr ⟨hy1, hy2⟩]
        push_cast
        ring
      simp only [azimuthalQuadrant]
      rw [hr1, hr2]
      have hq : QUARTER_PI = Real.pi / 4 := by
        simp only [QUARTER_PI, HALF_PI]
        ring
      have hh : HALF_PI = Real.pi / 2 := rfl
      rw [hq, hh, hPHIe]
      have hdiv : (θ + 2 * Real.pi + Real.pi / 4) / (Real.pi / 2)
          = (θ + Real.pi / 4) / (Real.pi / 2) + 4 := by
        have hne : Real.pi ≠ 0 := ne_of_gt hπ
        field_simp
        ring
      rw [hdiv]
      set x := (θ + Real.pi / 4) / (Real.pi / 2) with hxdef
      have hfl : ⌊x + (4 : ℝ)⌋ = ⌊x⌋ + 4 := by
        exact_mod_cast Int.floor_add_int x 4
      rw [hfl]
      have hhalf : (0 : ℝ) < Real.pi / 2 := by linarith
      have hm1 : ⌊x⌋ < 1 := by
        apply Int.floor_lt.mpr
        push_cast
        rw [hxdef, div_lt_one hhalf]
        linarith
      have hm2 : (-4 : ℤ) ≤ ⌊x⌋ := by
        apply Int.le_floor.mpr
        push_cast
        rw [hxdef, le_div_iff₀ hhalf]
        rw [hPHIe] at hC
        linarith
      generalize ⌊x⌋ = m at hm1 hm2 ⊢
      interval_cases m <;> decide
